import Mathlib

/-!
Verification of the layered command-authorization engine
(backend: guard.py, orchestrator.py, ai_judge.py, conflict.py, server.py).

Pure functions of the source are translated directly; the external
collaborators (shell tokenizer, regex engines, JSON parsing, the AI judge's
network call, the rule store) are modelled either from the spec's stated
contracts or as explicit parameters.  A Python value that may be unbound or
an operation that may raise is modelled with Option / Except.
-/

namespace UnboundCheck

/-! ## Tokenizer (shell word splitting) -/

/-- Lexer state of the POSIX shell-word splitter: outside quotes, inside
single quotes, inside double quotes, or just after a backslash (outside or
inside double quotes respectively). -/
inductive LexSt
  | normal
  | single
  | double
  | escN
  | escD
deriving DecidableEq, Repr

/-- Shell whitespace characters (space, tab, carriage return, newline). -/
def isWs (c : Char) : Bool :=
  c = ' ' || c = '\t' || c = '\r' || c = '\n'

/-- Modelled from the spec: the Tokenizer leaf component ("shell-word-splits a
command string; surfaces a syntax error for malformed quoting", §4.1), i.e.
the library primitive `shlex.split` used by guard.py.  Splits on whitespace
honoring single/double quotes and backslash escapes per POSIX shell-word
rules; an unterminated quote or a trailing escape yields `none` (the
`ValueError` of the library).  One character is consumed per step; `cur` is
the token under construction (`none` = no token started), `acc` the finished
tokens in order. -/
def shlexGo : List Char → LexSt → Option (List Char) → List (List Char) →
    Option (List (List Char))
  | [], .normal, cur, acc =>
    match cur with
    | none => some acc
    | some t => some (acc ++ [t])
  | [], _, _, _ => none
  | c :: l, .normal, cur, acc =>
    if isWs c then
      match cur with
      | none => shlexGo l .normal none acc
      | some t => shlexGo l .normal none (acc ++ [t])
    else if c = '\'' then shlexGo l .single (some (cur.getD [])) acc
    else if c = '"' then shlexGo l .double (some (cur.getD [])) acc
    else if c = '\\' then shlexGo l .escN cur acc
    else shlexGo l .normal (some (cur.getD [] ++ [c])) acc
  | c :: l, .single, cur, acc =>
    if c = '\'' then shlexGo l .normal cur acc
    else shlexGo l .single (some (cur.getD [] ++ [c])) acc
  | c :: l, .double, cur, acc =>
    if c = '"' then shlexGo l .normal cur acc
    else if c = '\\' then shlexGo l .escD cur acc
    else shlexGo l .double (some (cur.getD [] ++ [c])) acc
  | c :: l, .escN, cur, acc => shlexGo l .normal (some (cur.getD [] ++ [c])) acc
  | c :: l, .escD, cur, acc =>
    if c = '"' || c = '\\' then shlexGo l .double (some (cur.getD [] ++ [c])) acc
    else shlexGo l .double (some (cur.getD [] ++ ['\\', c])) acc

/-- `shlex.split`: tokenize a command string, `none` on a syntax error. -/
def tokenize (s : String) : Option (List String) :=
  (shlexGo s.toList .normal none []).map fun ts => ts.map fun t => String.mk t

/-- Character membership in a string (Python's `'|' in command_text`). -/
def containsChar (s : String) (c : Char) : Bool :=
  s.toList.contains c

/-! ## Layer 2: CommandGuard (guard.py) -/

/-- guard.py `BINARY_RISK`: risk scores for known binaries. -/
def BINARY_RISK : List (String × Nat) :=
  [("rm", 60), ("dd", 100), ("mkfs", 100), ("wget", 40), ("curl", 40),
   ("mv", 30), ("chmod", 40), ("chown", 40), ("sudo", 50), ("nc", 50),
   ("netcat", 50), ("ssh", 30), ("scp", 30), ("ftp", 30), ("python", 50),
   ("python3", 50), ("perl", 50), ("ruby", 50), ("bash", 50), ("sh", 50),
   ("zsh", 50), ("ls", 0), ("pwd", 0), ("echo", 0), ("cat", 0), ("grep", 0),
   ("find", 10), ("whoami", 0), ("id", 0)]

/-- guard.py `DEFAULT_BINARY_RISK`. -/
def DEFAULT_BINARY_RISK : Nat := 20

/-- guard.py `RISKY_FLAGS`. -/
def RISKY_FLAGS : List String := ["-f", "--force", "-r", "--recursive"]

/-- guard.py `CRITICAL_TARGETS`. -/
def CRITICAL_TARGETS : List String :=
  ["/", "/etc", "/var", "/boot", "/bin", "/sbin", "/usr/bin", "/usr/sbin"]

/-- `token in cls.RISKY_FLAGS`. -/
def isRiskyFlag (t : String) : Bool := RISKY_FLAGS.contains t

/-- `token in ['-f', '--force']`. -/
def isForceFlag (t : String) : Bool := t == "-f" || t == "--force"

/-- `token in ['-r', '-R', '--recursive']` (note: includes `-R`). -/
def isRecursiveFlag (t : String) : Bool :=
  t == "-r" || t == "-R" || t == "--recursive"

/-- `token.startswith(p)`, computed on the character lists (kernel-reducible
form of `String.startsWith`). -/
def strHasPref (t p : String) : Bool :=
  p.toList.isPrefixOf t.toList

/-- The per-token critical-target test of guard.py: some critical path `c`
with `token == c or (token.startswith(c + '/') and len(token) > len(c))`;
the `break` in the source means at most one +100 per token, matched by
`List.any` here. -/
def criticalHit (t : String) : Bool :=
  CRITICAL_TARGETS.any fun c =>
    t == c || (strHasPref t (c ++ "/") && decide (c.length < t.length))

/-- The mutable loop state of `CommandGuard.analyze`'s token loop. -/
structure FlagState where
  score : Nat
  hasForce : Bool
  hasRecursive : Bool
  reasons : List String
deriving DecidableEq, Repr

/-- One iteration of the `for token in tokens[1:]` loop of guard.py:
risky-flag +20, force/recursive recording, critical-target +100. -/
def flagStep (st : FlagState) (t : String) : FlagState :=
  let st1 :=
    if isRiskyFlag t then
      { st with score := st.score + 20,
                reasons := st.reasons ++ ["Risky flag '" ++ t ++ "' (+20)"] }
    else st
  let st2 :=
    { st1 with hasForce := st1.hasForce || isForceFlag t,
               hasRecursive := st1.hasRecursive || isRecursiveFlag t }
  if criticalHit t then
    { st2 with score := st2.score + 100,
               reasons := st2.reasons ++ ["Critical target '" ++ t ++ "' (+100)"] }
  else st2

/-- The `(decision, score, reason)` triple returned by `CommandGuard.analyze`. -/
structure RiskOut where
  decision : String
  score : Nat
  reason : String
deriving DecidableEq, Repr

/-- `CommandGuard.analyze` (guard.py): piping/redirection +30, tokenize
(fail-closed on syntax error), binary risk, flag/target loop, `rm -rf`
bonus, decision from the final score. -/
def analyze (cmd : String) : RiskOut :=
  let piped := containsChar cmd '|' || containsChar cmd '>'
  let pScore : Nat := if piped then 30 else 0
  let pReasons : List String :=
    if piped then ["Piping/Redirection detected (+30)"] else []
  match tokenize cmd with
  | none => ⟨"BLOCK", 100, "Malformed command syntax"⟩
  | some [] => ⟨"ALLOW", 0, "Empty command"⟩
  | some (b :: rest) =>
    let binScore := (BINARY_RISK.lookup b).getD DEFAULT_BINARY_RISK
    let r1 := pReasons ++
      (if 0 < binScore then
        ["Binary '" ++ b ++ "' risk (+" ++ toString binScore ++ ")"] else [])
    let st := rest.foldl flagStep ⟨pScore + binScore, false, false, r1⟩
    let bonus := b == "rm" && st.hasForce && st.hasRecursive
    let score := if bonus then st.score + 50 else st.score
    let rs :=
      if bonus then st.reasons ++ ["Destructive combination 'rm -rf' (+50)"]
      else st.reasons
    let decision :=
      if 100 ≤ score then "BLOCK" else if score = 0 then "ALLOW" else "ESCALATE"
    ⟨decision, score, if rs.isEmpty then "Safe command" else String.intercalate "; " rs⟩

/-! ## ConflictDetector (conflict.py) over a modelled automaton library -/

/-- Modelled from the spec: the RegexAutomaton / greenery finite-automaton
library used by ConflictDetector ("parses a regex pattern into a
deterministic finite automaton; supports intersection and emptiness/witness
queries", §2, §4.4; contract of §8: "`witness` returns a string accepted by
both operands whenever `is_empty` is false, and `None` otherwise").
`parse` may fail with an error message (invalid or unsupported pattern),
`inter` is the product construction, `empty` the emptiness test and
`firstString` the first element of `.strings()` (the witness).  `accepts`
gives the automaton's language; the three laws are the spec's stated
contract of the library. -/
structure RegexLib where
  A : Type
  parse : String → Except String A
  inter : A → A → A
  empty : A → Bool
  firstString : A → Option String
  accepts : A → String → Bool
  inter_accepts : ∀ a b s, accepts (inter a b) s = (accepts a s && accepts b s)
  empty_iff : ∀ a, empty a = true ↔ ∀ s, accepts a s = false
  firstString_spec : ∀ a, empty a = false →
    ∃ s, firstString a = some s ∧ accepts a s = true

/-- A stored rule row as ConflictDetector sees it (`{id, pattern}`). -/
structure ExistingRule where
  id : String
  pattern : String
deriving DecidableEq, Repr

/-- The conflict message built by conflict.py when an overlap is found. -/
def conflictMsg (i p w : String) : String :=
  "Conflict detected with Rule " ++ i ++ " ('" ++ p ++
    "'). Both rules would match the command: '" ++ w ++ "'"

/-- The `for rule in existing_patterns` loop of
`ConflictDetector.check_overlap`: compile each existing pattern (skipping it
on failure), intersect with the new pattern's automaton, and stop at the
first non-empty intersection with the conflict message (witness drawn from
`strings()`, `"[Infinite possibilities]"` on `StopIteration`). -/
def overlapScan (L : RegexLib) (na : L.A) : List ExistingRule → Bool × Option String
  | [] => (false, none)
  | r :: rest =>
    match L.parse r.pattern with
    | .error _ => overlapScan L na rest
    | .ok er =>
      if L.empty (L.inter na er) then overlapScan L na rest
      else
        (true, some (conflictMsg r.id r.pattern
          ((L.firstString (L.inter na er)).getD "[Infinite possibilities]")))

/-- `ConflictDetector.check_overlap` (conflict.py): parse the new pattern
(fail closed on error), then scan the existing patterns. -/
def checkOverlap (L : RegexLib) (newPat : String) (existing : List ExistingRule) :
    Bool × Option String :=
  match L.parse newPat with
  | .error e =>
    (true, some ("Invalid or too complex regex structure for verification: " ++ e))
  | .ok na => overlapScan L na existing

/-- A concrete instance of the automaton-library contract used to exercise
the theorems on closed inputs: a pattern denotes the finite language holding
exactly the pattern text itself, with `"?"` standing for an unparsable
pattern (a lone `?` is indeed invalid regex syntax). -/
def listLib : RegexLib where
  A := List String
  parse p := if p = "?" then .error "nothing to repeat" else .ok [p]
  inter a b := a.filter fun s => b.contains s
  empty a := a.isEmpty
  firstString a := a.head?
  accepts a s := a.contains s
  inter_accepts := by
    intro a b s
    by_cases h : s ∈ a <;> by_cases h2 : s ∈ b <;>
      simp [List.contains, List.elem_iff, List.mem_filter, h, h2]
  empty_iff := by
    intro a
    cases a with
    | nil => simp
    | cons x xs =>
      constructor
      · intro h; simp at h
      · intro h
        have := h x
        simp [List.contains, List.elem_iff] at this
  firstString_spec := by
    intro a h
    cases a with
    | nil => simp at h
    | cons x xs => exact ⟨x, rfl, by simp [List.contains, List.elem_iff]⟩

/-! ## Rule-authoring gates (server.py) -/

/-- A stored rule row as server.py persists it (the fields the conflict
gate touches). -/
structure StoredRule where
  id : String
  pattern : String
  is_active : Bool
deriving DecidableEq, Repr

/-- The `select("id, pattern")` projection of a stored rule. -/
def rowOf (r : StoredRule) : ExistingRule := ⟨r.id, r.pattern⟩

/-- The conflict gate of `create_rule` (server.py): the candidate pattern is
checked against ALL stored rules (the query carries no `is_active` filter). -/
def createRuleGate (L : RegexLib) (pat : String) (stored : List StoredRule) :
    Bool × Option String :=
  checkOverlap L pat (stored.map rowOf)

/-- The conflict gate of `update_rule` (server.py): the candidate pattern is
checked against all stored rules except the rule being edited
(`.neq("id", rule_id)`), again with no `is_active` filter. -/
def updateRuleGate (L : RegexLib) (ruleId pat : String) (stored : List StoredRule) :
    Bool × Option String :=
  checkOverlap L pat ((stored.filter fun r => !(r.id == ruleId)).map rowOf)

/-- `create_rule` persistence (server.py): a conflicting candidate raises
HTTP 409 before the insert; otherwise the rule is inserted. -/
def createRule (L : RegexLib) (nr : StoredRule) (stored : List StoredRule) :
    Except String (List StoredRule) :=
  let g := createRuleGate L nr.pattern stored
  if g.1 then .error ("Rule Conflict: " ++ g.2.getD "None")
  else .ok (stored ++ [nr])

/-- The gate as claim C7 states it (claim-version, for comparison with
`createRuleGate`): only rules whose pattern is active participate in the
overlap decision. -/
def createRuleGateActiveOnly (L : RegexLib) (pat : String)
    (stored : List StoredRule) : Bool × Option String :=
  checkOverlap L pat ((stored.filter fun r => r.is_active).map rowOf)

/-! ## Layer 3: the AI Judge (ai_judge.py) -/

/-- A parsed JSON object as `judge_command` inspects it: the optional
`status` and `reason` fields (a missing key reads as `none`). -/
structure JsonObj where
  status : Option String
  reason : Option String
deriving DecidableEq, Repr

/-- The external environment of one `judge_command` call: whether
`GEMINI_API_KEY` is set, the model call (raw response text, or the raised
exception's message), and `json.loads` (parsed object, or the raised
exception's message).  Both are external collaborators, so they enter the
model as parameters. -/
structure JudgeEnv where
  apiKey : Option String
  call : String → Except String String
  jsonParse : String → Except String JsonObj

/-- The code-fence cleanup of ai_judge.py: drop a leading "```json" and a
trailing "```". -/
def stripFences (t : String) : String :=
  let t1 := if t.startsWith "```json" then t.drop 7 else t
  if t1.endsWith "```" then t1.dropRight 3 else t1

/-- `judge_command` (ai_judge.py): missing key, transport error, JSON parse
error, or a missing/invalid `status` field each yield a BLOCKED result; a
validated response is returned unchanged.  The function is total: every
exception of the source is absorbed by its `try`/`except`. -/
def judgeCommand (env : JudgeEnv) (cmd : String) : JsonObj :=
  match env.apiKey with
  | none => ⟨some "BLOCKED", some "AI Judge unavailable (Missing API Key)"⟩
  | some _ =>
    match env.call cmd with
    | .error e => ⟨some "BLOCKED", some ("AI Judge failed: " ++ e)⟩
    | .ok text =>
      match env.jsonParse (stripFences text).trim with
      | .error e => ⟨some "BLOCKED", some ("AI Judge failed: " ++ e)⟩
      | .ok j =>
        match j.status with
        | none => ⟨some "BLOCKED", some "AI returned invalid format"⟩
        | some s =>
          if s = "EXECUTED" || s = "BLOCKED" then j
          else ⟨some "BLOCKED", some "AI returned invalid format"⟩

/-- The failure condition enumerated by claim C5: missing API credential,
transport error, unparsable response, or a response whose status field is
absent or not one of EXECUTED/BLOCKED. -/
def judgeFailure (env : JudgeEnv) (cmd : String) : Bool :=
  match env.apiKey with
  | none => true
  | some _ =>
    match env.call cmd with
    | .error _ => true
    | .ok text =>
      match env.jsonParse (stripFences text).trim with
      | .error _ => true
      | .ok j =>
        match j.status with
        | none => true
        | some s => !(s = "EXECUTED" || s = "BLOCKED")

/-! ## Orchestrator (orchestrator.py) -/

/-- A rule row as the orchestrator reads it from the store. -/
structure Rule where
  id : String
  pattern : String
  action : String
  description : Option String
deriving DecidableEq, Repr

/-- The final verdict dictionary of `process_command`. -/
structure Verdict where
  status : String
  layer : String
  score : Nat
  reason : String
  matched_rule : Option String
deriving DecidableEq, Repr

/-- Outcome of the Layer-1 rule loop: an AUTO_REJECT match (terminal), an
AUTO_ACCEPT match (the `break`), or loop exhaustion; the latter two carry
the value of the `matched_rule_id` variable. -/
inductive ScanOut
  | reject (r : Rule)
  | accept (mrid : Option String)
  | noMatch (mrid : Option String)
deriving DecidableEq, Repr

/-- The `for rule in rules` loop of `process_command`.  `search` stands for
`re.search(pattern, text)`: `none` models a raised `re.error` (the rule is
skipped by the `except ... continue`), `some b` a completed search.  On a
match `matched_rule_id` is set; AUTO_REJECT returns, AUTO_ACCEPT stops the
loop, any other action falls through to the next rule. -/
def scanRules (search : String → String → Option Bool) (cmd : String) :
    List Rule → Option String → ScanOut
  | [], mrid => .noMatch mrid
  | r :: rest, mrid =>
    match search r.pattern cmd with
    | none => scanRules search cmd rest mrid
    | some false => scanRules search cmd rest mrid
    | some true =>
      if r.action = "AUTO_REJECT" then .reject r
      else if r.action = "AUTO_ACCEPT" then .accept (some r.id)
      else scanRules search cmd rest (some r.id)

/-- The Layer-3 block of `process_command`: call the judge, read
`ai_result['status']` then `ai_result['reason']` (a missing key raises
`KeyError`), then build the verdict reading `matched_rule_id` (unbound if
the rule fetch raised before its initialization — modelled as the outer
`Option` being `none`). -/
def layer3 (env : JudgeEnv) (cmd : String) (score : Nat)
    (mvar : Option (Option String)) : Except String Verdict :=
  let ai := judgeCommand env cmd
  match ai.status with
  | none => .error "KeyError: status"
  | some st =>
    match ai.reason with
    | none => .error "KeyError: reason"
    | some rs =>
      match mvar with
      | none => .error "UnboundLocalError: matched_rule_id"
      | some m =>
        .ok ⟨st, "3_AI", score,
          "AI Verdict: " ++ rs ++ " (Risk Score: " ++ toString score ++ ")", m⟩

/-- The conflict-resolution decision tree of `process_command` after Layer 1
(`dec` = the `l1_decision` string, `mvar` = the `matched_rule_id` variable,
`none` meaning it was never assigned): score ≥ 100 blocks unless Layer 1
accepted (then escalate), score 0 executes, 1–99 escalates.  Building a
verdict reads `matched_rule_id`, raising `UnboundLocalError` when unbound. -/
def decisionTree (env : JudgeEnv) (cmd : String) (dec : String)
    (mvar : Option (Option String)) : Except String Verdict :=
  let g := analyze cmd
  if 100 ≤ g.score then
    if dec = "AUTO_ACCEPT" then layer3 env cmd g.score mvar
    else
      match mvar with
      | none => .error "UnboundLocalError: matched_rule_id"
      | some m =>
        .ok ⟨"BLOCKED", "2_GUARD", g.score,
          "Heuristic Risk too high (" ++ toString g.score ++ "): " ++ g.reason, m⟩
  else if g.score = 0 then
    match mvar with
    | none => .error "UnboundLocalError: matched_rule_id"
    | some m => .ok ⟨"EXECUTED", "2_GUARD", g.score, "Verified Safe", m⟩
  else layer3 env cmd g.score mvar

/-- `CommandOrchestrator.process_command` (orchestrator.py).  `fetch` is the
rule-store read (`.error` = the fetch raised): on a fetch error the
`except` block sets `l1_decision = "NO_MATCH"` but `matched_rule_id` stays
unassigned (it is initialized inside the `try` AFTER the fetch), modelled
by `mvar = none`; any later read of it raises `UnboundLocalError`.  The
result is `.ok` of the returned verdict dictionary, or `.error` with the
exception that escapes to the caller. -/
def processCommand (search : String → String → Option Bool) (env : JudgeEnv)
    (fetch : Except String (List Rule)) (cmd : String) : Except String Verdict :=
  match fetch with
  | .error _ => decisionTree env cmd "NO_MATCH" none
  | .ok rules =>
    match scanRules search cmd rules none with
    | .reject r =>
      .ok ⟨"BLOCKED", "1_RULES", 0,
        "Admin Explicitly Forbidden: " ++ r.description.getD "No description",
        some r.id⟩
    | .accept m => decisionTree env cmd "AUTO_ACCEPT" (some m)
    | .noMatch m => decisionTree env cmd "NO_MATCH" (some m)

/-- Substring occurrence on character lists. -/
def subSearch (p : List Char) : List Char → Bool
  | [] => p.isPrefixOf []
  | c :: t => p.isPrefixOf (c :: t) || subSearch p t

/-- A concrete stand-in for `re.search` used on closed inputs: literal
substring search, with the pattern "(" standing for a pattern that raises
`re.error` (a lone "(" is indeed invalid regex syntax). -/
def searchStub (p t : String) : Option Bool :=
  if p = "(" then none else some (subSearch p.toList t.toList)

/-- A concrete judge environment with no API key configured. -/
def noKeyEnv : JudgeEnv :=
  ⟨none, fun _ => .error "down", fun _ => .error "no json"⟩

/-- Characters that the splitter consumes without adding them to a token are
never `'|'` or `'>'`. -/
theorem isWs_ne_pipe {c : Char} (h : isWs c = true) : c ≠ '|' ∧ c ≠ '>' := by
  simp only [isWs, Bool.or_eq_true, decide_eq_true_eq] at h
  rcases h with ((h | h) | h) | h <;> subst h <;> exact ⟨by decide, by decide⟩

/-- Once a token has been started (or finished), or a `'|'`/`'>'` remains in
the input, a successful split yields a non-empty token list. -/
theorem shlexGo_ne_nil :
    ∀ (l : List Char) (st : LexSt) (cur : Option (List Char))
      (acc : List (List Char)) (ts : List (List Char)),
      shlexGo l st cur acc = some ts →
      (acc ≠ [] ∨ cur ≠ none ∨ '|' ∈ l ∨ '>' ∈ l) → ts ≠ [] := by
  intro l
  induction l with
  | nil =>
    intro st cur acc ts h hstart
    cases st <;> simp only [shlexGo] at h
    case single => exact absurd h (by simp)
    case double => exact absurd h (by simp)
    case escN => exact absurd h (by simp)
    case escD => exact absurd h (by simp)
    case normal =>
      cases cur with
      | none =>
        cases h
        rcases hstart with h1 | h1 | h1 | h1
        · exact h1
        · exact absurd rfl h1
        · simp at h1
        · simp at h1
      | some t =>
        cases h
        simp
  | cons c l ih =>
    intro st cur acc ts h hstart
    have htail : (c ≠ '|' ∧ c ≠ '>') →
        (acc ≠ [] ∨ cur ≠ none ∨ '|' ∈ l ∨ '>' ∈ l) := by
      intro hc
      rcases hstart with h1 | h1 | h1 | h1
      · exact Or.inl h1
      · exact Or.inr (Or.inl h1)
      · rcases List.mem_cons.mp h1 with h2 | h2
        · exact absurd h2.symm hc.1
        · exact Or.inr (Or.inr (Or.inl h2))
      · rcases List.mem_cons.mp h1 with h2 | h2
        · exact absurd h2.symm hc.2
        · exact Or.inr (Or.inr (Or.inr h2))
    cases st
    case normal =>
      simp only [shlexGo] at h
      split at h
      case isTrue hws =>
        cases cur with
        | none =>
          refine ih _ _ _ _ h ?_
          rcases htail (isWs_ne_pipe hws) with h1 | h1 | h1
          · exact Or.inl h1
          · exact absurd rfl h1
          · exact Or.inr (Or.inr h1)
        | some t => exact ih _ _ _ _ h (Or.inl (by simp))
      case isFalse =>
        split at h
        case isTrue => exact ih _ _ _ _ h (Or.inr (Or.inl (by simp)))
        case isFalse =>
          split at h
          case isTrue => exact ih _ _ _ _ h (Or.inr (Or.inl (by simp)))
          case isFalse =>
            split at h
            case isTrue hbs =>
              refine ih _ _ _ _ h ?_
              subst hbs
              rcases htail ⟨by decide, by decide⟩ with h1 | h1 | h1
              · exact Or.inl h1
              · exact Or.inr (Or.inl h1)
              · exact Or.inr (Or.inr h1)
            case isFalse => exact ih _ _ _ _ h (Or.inr (Or.inl (by simp)))
    case single =>
      simp only [shlexGo] at h
      split at h
      case isTrue hq =>
        refine ih _ _ _ _ h ?_
        subst hq
        rcases htail ⟨by decide, by decide⟩ with h1 | h1 | h1
        · exact Or.inl h1
        · exact Or.inr (Or.inl h1)
        · exact Or.inr (Or.inr h1)
      case isFalse => exact ih _ _ _ _ h (Or.inr (Or.inl (by simp)))
    case double =>
      simp only [shlexGo] at h
      split at h
      case isTrue hq =>
        refine ih _ _ _ _ h ?_
        subst hq
        rcases htail ⟨by decide, by decide⟩ with h1 | h1 | h1
        · exact Or.inl h1
        · exact Or.inr (Or.inl h1)
        · exact Or.inr (Or.inr h1)
      case isFalse =>
        split at h
        case isTrue hbs =>
          refine ih _ _ _ _ h ?_
          subst hbs
          rcases htail ⟨by decide, by decide⟩ with h1 | h1 | h1
          · exact Or.inl h1
          · exact Or.inr (Or.inl h1)
          · exact Or.inr (Or.inr h1)
        case isFalse => exact ih _ _ _ _ h (Or.inr (Or.inl (by simp)))
    case escN =>
      simp only [shlexGo] at h
      exact ih _ _ _ _ h (Or.inr (Or.inl (by simp)))
    case escD =>
      simp only [shlexGo] at h
      split at h <;> exact ih _ _ _ _ h (Or.inr (Or.inl (by simp)))

/-- A command containing `'|'` or `'>'` never tokenizes to the empty list. -/
theorem tokenize_ne_nil {cmd : String} {ts : List String}
    (h : tokenize cmd = some ts)
    (hp : (containsChar cmd '|' || containsChar cmd '>') = true) : ts ≠ [] := by
  simp only [tokenize, Option.map_eq_some'] at h
  obtain ⟨raw, hraw, hmap⟩ := h
  have hmem : '|' ∈ cmd.toList ∨ '>' ∈ cmd.toList := by
    simp only [containsChar, Bool.or_eq_true] at hp
    rcases hp with hp | hp
    · exact Or.inl (by simpa [List.contains, List.elem_iff] using hp)
    · exact Or.inr (by simpa [List.contains, List.elem_iff] using hp)
  have := shlexGo_ne_nil cmd.toList .normal none [] raw hraw
    (Or.inr (Or.inr hmem))
  subst hmap
  simpa using this

theorem flagStep_score (st : FlagState) (t : String) :
    (flagStep st t).score =
      st.score + (if isRiskyFlag t then 20 else 0)
        + (if criticalHit t then 100 else 0) := by
  simp only [flagStep]
  split_ifs <;> simp

theorem flagStep_hasForce (st : FlagState) (t : String) :
    (flagStep st t).hasForce = (st.hasForce || isForceFlag t) := by
  simp only [flagStep]
  split_ifs <;> simp

theorem flagStep_hasRecursive (st : FlagState) (t : String) :
    (flagStep st t).hasRecursive = (st.hasRecursive || isRecursiveFlag t) := by
  simp only [flagStep]
  split_ifs <;> simp

/-- Closed form of the token loop of `CommandGuard.analyze`: the loop adds
exactly 20 per risky-flag token and 100 per critical-target token, and the
force/recursive flags end up set exactly when some token is a
force/recursive literal. -/
theorem flagLoop_spec (ts : List String) (st : FlagState) :
    (ts.foldl flagStep st).score =
        st.score + 20 * ts.countP isRiskyFlag + 100 * ts.countP criticalHit
      ∧ (ts.foldl flagStep st).hasForce = (st.hasForce || ts.any isForceFlag)
      ∧ (ts.foldl flagStep st).hasRecursive
          = (st.hasRecursive || ts.any isRecursiveFlag) := by
  induction ts generalizing st with
  | nil => simp
  | cons t ts ih =>
    obtain ⟨h1, h2, h3⟩ := ih (flagStep st t)
    refine ⟨?_, ?_, ?_⟩
    · rw [List.foldl_cons, h1, flagStep_score]
      simp only [List.countP_cons]
      split_ifs <;> omega
    · rw [List.foldl_cons, h2, flagStep_hasForce]
      simp [Bool.or_assoc]
    · rw [List.foldl_cons, h3, flagStep_hasRecursive]
      simp [Bool.or_assoc]

/-- Closed form of `CommandGuard.analyze`'s score on a tokenizable command:
piping bonus, binary risk, 20 per risky flag, 100 per critical target, and
the 50 `rm -rf` bonus exactly when the binary is `rm` and both a force
literal (`-f`/`--force`) and a recursive literal (`-r`/`-R`/`--recursive`)
occur among the remaining tokens. -/
theorem analyze_score_decomp {cmd : String} {b : String} {rest : List String}
    (h : tokenize cmd = some (b :: rest)) :
    (analyze cmd).score =
      (if (containsChar cmd '|' || containsChar cmd '>') then 30 else 0)
        + (BINARY_RISK.lookup b).getD DEFAULT_BINARY_RISK
        + 20 * rest.countP isRiskyFlag + 100 * rest.countP criticalHit
        + (if b == "rm" && rest.any isForceFlag && rest.any isRecursiveFlag
           then 50 else 0) := by
  obtain ⟨hs, hf, hr⟩ := flagLoop_spec rest
    (⟨(if (containsChar cmd '|' || containsChar cmd '>') then 30 else 0)
        + (BINARY_RISK.lookup b).getD DEFAULT_BINARY_RISK, false, false,
      (if (containsChar cmd '|' || containsChar cmd '>')
        then ["Piping/Redirection detected (+30)"] else []) ++
      (if 0 < (BINARY_RISK.lookup b).getD DEFAULT_BINARY_RISK then
        ["Binary '" ++ b ++ "' risk (+"
          ++ toString ((BINARY_RISK.lookup b).getD DEFAULT_BINARY_RISK) ++ ")"]
       else [])⟩ : FlagState)
  simp only [analyze, h]
  simp only [hs, hf, hr] at *
  split_ifs <;> simp_all

/-- On a command containing `'|'` or `'>'` the analyzer's score is at least
30: the syntax-error path returns 100, and otherwise the +30 piping bonus is
part of the additive total (the token list cannot be empty). -/
theorem analyze_score_ge_30 {cmd : String}
    (hp : (containsChar cmd '|' || containsChar cmd '>') = true) :
    30 ≤ (analyze cmd).score := by
  match htok : tokenize cmd with
  | none => simp [analyze, htok]
  | some [] => exact absurd rfl (tokenize_ne_nil htok hp)
  | some (b :: rest) =>
    rw [analyze_score_decomp htok, hp]
    simp only [if_true]
    omega

end UnboundCheck

namespace UnboundCheck

/-- The scan reports a conflict exactly when some existing rule's pattern
compiles and its intersection with the new pattern's automaton is
non-empty. -/
theorem overlapScan_true_iff (L : RegexLib) (na : L.A) (rs : List ExistingRule) :
    (overlapScan L na rs).1 = true ↔
      ∃ r ∈ rs, ∃ b, L.parse r.pattern = .ok b
        ∧ L.empty (L.inter na b) = false := by
  induction rs with
  | nil => simp [overlapScan]
  | cons r rest ih =>
    cases hp : L.parse r.pattern with
    | error e =>
      simp only [overlapScan, hp, List.mem_cons, ih]
      constructor
      · rintro ⟨x, hx, hb⟩
        exact ⟨x, Or.inr hx, hb⟩
      · rintro ⟨x, hx | hx, hb⟩
        · subst hx
          obtain ⟨b, hb1, _⟩ := hb
          rw [hp] at hb1
          cases hb1
        · exact ⟨x, hx, hb⟩
    | ok er =>
      by_cases he : L.empty (L.inter na er) = true
      · simp only [overlapScan, hp, he, if_true, List.mem_cons, ih]
        constructor
        · rintro ⟨x, hx, hb⟩
          exact ⟨x, Or.inr hx, hb⟩
        · rintro ⟨x, hx | hx, hb⟩
          · subst hx
            obtain ⟨b, hb1, hb2⟩ := hb
            rw [hp] at hb1
            cases hb1
            rw [he] at hb2
            cases hb2
          · exact ⟨x, hx, hb⟩
      · simp only [overlapScan, hp, if_neg he, List.mem_cons]
        simp only [true_iff]
        exact ⟨r, Or.inl rfl, er, hp, by simpa using he⟩

/-- A scan that finds no conflict returns exactly `(false, none)`. -/
theorem overlapScan_false (L : RegexLib) (na : L.A) (rs : List ExistingRule)
    (h : (overlapScan L na rs).1 = false) :
    overlapScan L na rs = (false, none) := by
  induction rs with
  | nil => simp [overlapScan]
  | cons r rest ih =>
    cases hp : L.parse r.pattern with
    | error e =>
      simp only [overlapScan, hp] at h ⊢
      exact ih h
    | ok er =>
      by_cases he : L.empty (L.inter na er) = true
      · simp only [overlapScan, hp, he, if_true] at h ⊢
        exact ih h
      · simp only [overlapScan, hp, if_neg he] at h
        cases h

/-- When the scan reports a conflict, the reason names the offending rule's
id and pattern text together with a witness string accepted by both the new
and the existing pattern's automata. -/
theorem overlapScan_conflict (L : RegexLib) (na : L.A) (rs : List ExistingRule)
    (h : (overlapScan L na rs).1 = true) :
    ∃ r ∈ rs, ∃ b w, L.parse r.pattern = .ok b
      ∧ (overlapScan L na rs).2 = some (conflictMsg r.id r.pattern w)
      ∧ L.accepts na w = true ∧ L.accepts b w = true := by
  induction rs with
  | nil => simp [overlapScan] at h
  | cons r rest ih =>
    cases hp : L.parse r.pattern with
    | error e =>
      simp only [overlapScan, hp] at h ⊢
      obtain ⟨x, hx, b, w, h1, h2, h3, h4⟩ := ih h
      exact ⟨x, List.mem_cons_of_mem _ hx, b, w, h1, h2, h3, h4⟩
    | ok er =>
      by_cases he : L.empty (L.inter na er) = true
      · simp only [overlapScan, hp, he, if_true] at h ⊢
        obtain ⟨x, hx, b, w, h1, h2, h3, h4⟩ := ih h
        exact ⟨x, List.mem_cons_of_mem _ hx, b, w, h1, h2, h3, h4⟩
      · simp only [overlapScan, hp, if_neg he]
        have hne : L.empty (L.inter na er) = false := by simpa using he
        obtain ⟨w, hw1, hw2⟩ := L.firstString_spec _ hne
        have hacc := L.inter_accepts na er w
        rw [hw2] at hacc
        refine ⟨r, List.mem_cons_self r rest, er, w, hp, ?_, ?_, ?_⟩
        · simp [hw1]
        · exact ((Bool.and_eq_true _ _).mp hacc.symm).1
        · exact ((Bool.and_eq_true _ _).mp hacc.symm).2

end UnboundCheck

namespace UnboundCheck

/-- Rules whose pattern does not complete a successful match (no match, or a
raised `re.error`) are skipped without affecting the scan. -/
theorem scanRules_skip (search : String → String → Option Bool) (cmd : String)
    (pre rest : List Rule) (mrid : Option String)
    (hpre : ∀ r ∈ pre, search r.pattern cmd ≠ some true) :
    scanRules search cmd (pre ++ rest) mrid = scanRules search cmd rest mrid := by
  induction pre with
  | nil => rfl
  | cons p pre ih =>
    have hp : search p.pattern cmd ≠ some true :=
      hpre p (List.mem_cons_self p pre)
    have hrec : ∀ m, scanRules search cmd ((p :: pre) ++ rest) m
        = scanRules search cmd (pre ++ rest) m := by
      intro m
      cases hs : search p.pattern cmd with
      | none =>
        simp only [List.cons_append, scanRules, hs]
        rfl
      | some b =>
        cases b with
        | false =>
          simp only [List.cons_append, scanRules, hs]
          rfl
        | true => exact absurd hs hp
    
    rw [hrec mrid, ih fun r hr => hpre r (List.mem_cons_of_mem p hr)]

/-- A successful Layer-3 verdict always carries layer `3_AI`. -/
theorem layer3_ok_layer (env : JudgeEnv) (cmd : String) (score : Nat)
    (mvar : Option (Option String)) (v : Verdict)
    (h : layer3 env cmd score mvar = .ok v) : v.layer = "3_AI" := by
  cases hst : (judgeCommand env cmd).status with
  | none =>
    simp only [layer3, hst] at h
    exact Except.noConfusion h
  | some st =>
    cases hrs : (judgeCommand env cmd).reason with
    | none =>
      simp only [layer3, hst, hrs] at h
      exact Except.noConfusion h
    | some rs =>
      cases mvar with
      | none =>
        simp only [layer3, hst, hrs] at h
        exact Except.noConfusion h
      | some m =>
        simp only [layer3, hst, hrs] at h
        cases h
        rfl

/-- With a bound `matched_rule_id` and a well-formed judge reply, Layer 3
returns the judge's status under layer `3_AI` with the combined reason. -/
theorem layer3_ok (env : JudgeEnv) (cmd : String) (score : Nat)
    (m : Option String) {st rs : String}
    (hst : (judgeCommand env cmd).status = some st)
    (hrs : (judgeCommand env cmd).reason = some rs) :
    layer3 env cmd score (some m) =
      .ok ⟨st, "3_AI", score,
        "AI Verdict: " ++ rs ++ " (Risk Score: " ++ toString score ++ ")", m⟩ := by
  simp only [layer3, hst, hrs]

/-- Decision tree, safe case: a zero score executes at once. -/
theorem decisionTree_score0 (env : JudgeEnv) (cmd : String) (dec : String)
    (m : Option String) (h : (analyze cmd).score = 0) :
    decisionTree env cmd dec (some m) =
      .ok ⟨"EXECUTED", "2_GUARD", (analyze cmd).score, "Verified Safe", m⟩ := by
  simp only [decisionTree, h]
  rfl

/-- Decision tree, critical case without a Layer-1 accept: terminal BLOCKED
from the guard. -/
theorem decisionTree_high (env : JudgeEnv) (cmd : String) (dec : String)
    (m : Option String) (h : 100 ≤ (analyze cmd).score)
    (hd : dec ≠ "AUTO_ACCEPT") :
    decisionTree env cmd dec (some m) =
      .ok ⟨"BLOCKED", "2_GUARD", (analyze cmd).score,
        "Heuristic Risk too high (" ++ toString (analyze cmd).score ++ "): "
          ++ (analyze cmd).reason, m⟩ := by
  simp only [decisionTree, if_pos h, if_neg hd]

/-- Decision tree, escalation cases: score 1–99, or score ≥ 100 after a
Layer-1 accept. -/
theorem decisionTree_escalate (env : JudgeEnv) (cmd : String) (dec : String)
    (mvar : Option (Option String))
    (h : (1 ≤ (analyze cmd).score ∧ (analyze cmd).score ≤ 99)
       ∨ (100 ≤ (analyze cmd).score ∧ dec = "AUTO_ACCEPT")) :
    decisionTree env cmd dec mvar = layer3 env cmd (analyze cmd).score mvar := by
  rcases h with ⟨h1, h2⟩ | ⟨h1, h2⟩
  · have hn : ¬ 100 ≤ (analyze cmd).score := by omega
    have hz : ¬ (analyze cmd).score = 0 := by omega
    simp only [decisionTree, if_neg hn, if_neg hz]
  · simp only [decisionTree, if_pos h1, h2, if_pos rfl]
    simp

/-- The decision tree hands the command to the judge (the verdict carries
layer `3_AI`) exactly under the escalation condition: an ambiguous score
1–99, or a critical score together with a Layer-1 accept. -/
theorem decisionTree_layer3_iff (env : JudgeEnv) (cmd : String) (dec : String)
    (m : Option String) {st rs : String}
    (hst : (judgeCommand env cmd).status = some st)
    (hrs : (judgeCommand env cmd).reason = some rs) :
    (∃ v, decisionTree env cmd dec (some m) = .ok v ∧ v.layer = "3_AI") ↔
      ((1 ≤ (analyze cmd).score ∧ (analyze cmd).score ≤ 99)
        ∨ (100 ≤ (analyze cmd).score ∧ dec = "AUTO_ACCEPT")) := by
  constructor
  · rintro ⟨v, hv, hl⟩
    by_cases h100 : 100 ≤ (analyze cmd).score
    · by_cases hacc : dec = "AUTO_ACCEPT"
      · exact Or.inr ⟨h100, hacc⟩
      · rw [decisionTree_high env cmd dec m h100 hacc] at hv
        cases hv
        simp at hl
    · by_cases h0 : (analyze cmd).score = 0
      · rw [decisionTree_score0 env cmd dec m h0] at hv
        cases hv
        simp at hl
      · exact Or.inl ⟨by omega, by omega⟩
  · intro h
    rw [decisionTree_escalate env cmd dec (some m) h,
      layer3_ok env cmd (analyze cmd).score m hst hrs]
    exact ⟨_, rfl, rfl⟩

end UnboundCheck

namespace UnboundCheck

/-! ## Claim theorems -/

/-- Claim C1 (code bug): when the rule-store fetch raises, `process_command`
does NOT absorb the failure into a terminal verdict — `matched_rule_id` is
initialized inside the `try` block after the fetch, so every later verdict
construction raises `UnboundLocalError` to the caller, contrary to the
claim (and to the source's own "Fail safe: If DB fails, proceed to Layer 2"
comment).  With the fetch succeeding, the same command yields a terminal
verdict. -/
theorem orchestrator_db_failure_raises :
    processCommand searchStub noKeyEnv (.error "connection refused") "ls"
      = .error "UnboundLocalError: matched_rule_id"
    ∧ processCommand searchStub noKeyEnv (.ok []) "ls"
      = .ok ⟨"EXECUTED", "2_GUARD", 0, "Verified Safe", none⟩ := by
  exact ⟨rfl, rfl⟩

/-- Claim C2: the first rule whose pattern matches decides Layer 1 — an
AUTO_REJECT match returns the terminal BLOCKED rules-layer verdict (with
score 0 and the rule's description in the reason) regardless of the rules
after it, an AUTO_ACCEPT match ends the scan as an accept carrying the
rule's id; earlier rules that do not match (including those whose pattern
raises `re.error`) are skipped. -/
theorem layer1_first_match_decides (search : String → String → Option Bool)
    (env : JudgeEnv) (cmd : String) (pre post : List Rule) (r : Rule)
    (hpre : ∀ p ∈ pre, search p.pattern cmd ≠ some true)
    (hr : search r.pattern cmd = some true) :
    (r.action = "AUTO_REJECT" →
      processCommand search env (.ok (pre ++ r :: post)) cmd =
        .ok ⟨"BLOCKED", "1_RULES", 0,
          "Admin Explicitly Forbidden: " ++ r.description.getD "No description",
          some r.id⟩)
    ∧ (r.action = "AUTO_ACCEPT" →
        scanRules search cmd (pre ++ r :: post) none = .accept (some r.id)) := by
  have hs := scanRules_skip search cmd pre (r :: post) none hpre
  constructor
  · intro ha
    simp only [processCommand, hs, scanRules, hr, if_pos ha]
  · intro ha
    rw [hs]
    simp [scanRules, hr, ha]

/-- Witness for C2, realizing the claim's own scenario: an unparsable rule
first (skipped), an AUTO_ACCEPT rule second and an AUTO_REJECT rule third
both matching the text — the ACCEPT at the earlier position wins. -/
theorem layer1_first_match_decides_witness :
    (∀ p ∈ [(⟨"B", "(", "AUTO_REJECT", none⟩ : Rule)],
        searchStub p.pattern "rm -rf /tmp" ≠ some true)
    ∧ searchStub "rm" "rm -rf /tmp" = some true
    ∧ scanRules searchStub "rm -rf /tmp"
        ([⟨"B", "(", "AUTO_REJECT", none⟩] ++
          (⟨"A", "rm", "AUTO_ACCEPT", some "allow rm"⟩ : Rule) ::
            [⟨"R", "rm", "AUTO_REJECT", some "forbid rm"⟩]) none
        = .accept (some "A") := by
  refine ⟨by decide, by decide, ?_⟩
  exact (layer1_first_match_decides searchStub noKeyEnv "rm -rf /tmp"
    [⟨"B", "(", "AUTO_REJECT", none⟩] [⟨"R", "rm", "AUTO_REJECT", some "forbid rm"⟩]
    ⟨"A", "rm", "AUTO_ACCEPT", some "allow rm"⟩ (by decide) (by decide)).2 rfl

/-- Claim C3: after Layer 1 ends in an accept (`acc = true`) or no match
(`acc = false`), the judge decides the verdict (layer `3_AI`) exactly when
the risk score is 1–99, or is ≥ 100 with a Layer-1 accept; and when the
score is ≥ 100 without an accept, the verdict is terminal BLOCKED from the
guard, its reason embedding the heuristic reasons and `matched_rule`
carrying whatever Layer 1 recorded (possibly none). -/
theorem judge_invoked_iff (search : String → String → Option Bool)
    (env : JudgeEnv) (rules : List Rule) (cmd : String) (m : Option String)
    (acc : Bool) {jst jrs : String}
    (hscan : (scanRules search cmd rules none = .accept m ∧ acc = true)
       ∨ (scanRules search cmd rules none = .noMatch m ∧ acc = false))
    (hst : (judgeCommand env cmd).status = some jst)
    (hrs : (judgeCommand env cmd).reason = some jrs) :
    ((∃ v, processCommand search env (.ok rules) cmd = .ok v ∧ v.layer = "3_AI")
      ↔ ((1 ≤ (analyze cmd).score ∧ (analyze cmd).score ≤ 99)
         ∨ (100 ≤ (analyze cmd).score ∧ acc = true)))
    ∧ (100 ≤ (analyze cmd).score → acc = false →
        processCommand search env (.ok rules) cmd =
          .ok ⟨"BLOCKED", "2_GUARD", (analyze cmd).score,
            "Heuristic Risk too high (" ++ toString (analyze cmd).score ++ "): "
              ++ (analyze cmd).reason, m⟩) := by
  rcases hscan with ⟨hsc, hacc⟩ | ⟨hsc, hacc⟩
  · subst hacc
    constructor
    · have := decisionTree_layer3_iff env cmd "AUTO_ACCEPT" m hst hrs
      simp only [processCommand, hsc]
      simpa using this
    · intro _ hfalse
      cases hfalse
  · subst hacc
    constructor
    · have := decisionTree_layer3_iff env cmd "NO_MATCH" m hst hrs
      simp only [processCommand, hsc]
      simp only [show ("NO_MATCH" = "AUTO_ACCEPT") ↔ False by simp] at this
      simpa using this
    · intro h100 _
      simp only [processCommand, hsc]
      exact decisionTree_high env cmd "NO_MATCH" m h100 (by decide)

/-- Witness for C3 at a concrete ambiguous command (`mv a b`, score 30 from
the binary table) with no rules and a judge environment lacking the API
key. -/
theorem judge_invoked_iff_witness :
    (scanRules searchStub "mv a b" ([] : List Rule) none = .noMatch none)
    ∧ ((judgeCommand noKeyEnv "mv a b").status = some "BLOCKED")
    ∧ ((∃ v, processCommand searchStub noKeyEnv (.ok []) "mv a b" = .ok v
          ∧ v.layer = "3_AI")
       ↔ ((1 ≤ (analyze "mv a b").score ∧ (analyze "mv a b").score ≤ 99)
          ∨ (100 ≤ (analyze "mv a b").score ∧ false = true))) := by
  refine ⟨rfl, rfl, ?_⟩
  exact (judge_invoked_iff searchStub noKeyEnv [] "mv a b" none false
    (Or.inr ⟨rfl, rfl⟩) rfl rfl).1

/-- Claim C4: a risk score of exactly 0 yields terminal EXECUTED from the
guard layer, whether Layer 1 ended in an accept or in no match, for every
judge environment (so the judge is never consulted). -/
theorem score_zero_executes (search : String → String → Option Bool)
    (env : JudgeEnv) (rules : List Rule) (cmd : String) (m : Option String)
    (hscan : scanRules search cmd rules none = .accept m
       ∨ scanRules search cmd rules none = .noMatch m)
    (hs : (analyze cmd).score = 0) :
    processCommand search env (.ok rules) cmd =
      .ok ⟨"EXECUTED", "2_GUARD", 0, "Verified Safe", m⟩ := by
  rcases hscan with hsc | hsc <;>
    · simp only [processCommand, hsc]
      rw [decisionTree_score0 env cmd _ m hs, hs]

/-- Witness for C4: `ls` (score 0) with a matching AUTO_ACCEPT rule
executes from the guard layer. -/
theorem score_zero_executes_witness :
    (scanRules searchStub "ls" [(⟨"A", "ls", "AUTO_ACCEPT", none⟩ : Rule)] none
      = .accept (some "A"))
    ∧ ((analyze "ls").score = 0)
    ∧ processCommand searchStub noKeyEnv
        (.ok [⟨"A", "ls", "AUTO_ACCEPT", none⟩]) "ls"
        = .ok ⟨"EXECUTED", "2_GUARD", 0, "Verified Safe", some "A"⟩ := by
  refine ⟨by decide, rfl, ?_⟩
  exact score_zero_executes searchStub noKeyEnv
    [⟨"A", "ls", "AUTO_ACCEPT", none⟩] "ls" (some "A") (Or.inl (by decide)) rfl

end UnboundCheck

namespace UnboundCheck

/-- Claim C5: `judge_command` always yields a status of EXECUTED or BLOCKED
(it is total — every exception of the source is absorbed), and under any of
the enumerated failures (missing credential, transport error, unparsable
response, absent or invalid status field) the status is BLOCKED:
fail-closed, never fail-open. -/
theorem judge_fail_closed (env : JudgeEnv) (cmd : String) :
    ((judgeCommand env cmd).status = some "EXECUTED"
      ∨ (judgeCommand env cmd).status = some "BLOCKED")
    ∧ (judgeFailure env cmd = true →
        (judgeCommand env cmd).status = some "BLOCKED") := by
  cases hk : env.apiKey with
  | none => simp [judgeCommand, judgeFailure, hk]
  | some k =>
    cases hc : env.call cmd with
    | error e => simp [judgeCommand, judgeFailure, hk, hc]
    | ok text =>
      cases hj : env.jsonParse (stripFences text).trim with
      | error e => simp [judgeCommand, judgeFailure, hk, hc, hj]
      | ok j =>
        cases hs : j.status with
        | none => simp [judgeCommand, judgeFailure, hk, hc, hj, hs]
        | some s =>
          by_cases hv : s = "EXECUTED" ∨ s = "BLOCKED"
          · rcases hv with hv | hv <;>
              simp [judgeCommand, judgeFailure, hk, hc, hj, hs, hv]
          · have h1 : ¬ s = "EXECUTED" := fun h => hv (Or.inl h)
            have h2 : ¬ s = "BLOCKED" := fun h => hv (Or.inr h)
            simp [judgeCommand, judgeFailure, hk, hc, hj, hs, h1, h2]

/-- Witness for C5: a judge call with a configured key whose transport
raises is interpreted as BLOCKED. -/
theorem judge_fail_closed_witness :
    (judgeFailure ⟨some "k", fun _ => .error "timeout", fun _ => .error "e"⟩
        "rm -rf /" = true)
    ∧ (judgeCommand ⟨some "k", fun _ => .error "timeout", fun _ => .error "e"⟩
        "rm -rf /").status = some "BLOCKED" := by
  refine ⟨rfl, ?_⟩
  exact (judge_fail_closed
    ⟨some "k", fun _ => .error "timeout", fun _ => .error "e"⟩ "rm -rf /").2 rfl

/-- Claim C6: `check_overlap` fails closed when the new pattern does not
compile (conflict with an explanatory reason); otherwise it reports a
conflict exactly when some compilable existing pattern has a non-empty
intersection with the new one, the reported reason carrying the offending
rule's id, its pattern text and a witness string accepted by both automata;
and with no conflict it returns `(false, none)` (existing patterns that do
not compile are skipped, which is part of the iff: they cannot supply the
required compilable automaton). -/
theorem check_overlap_spec (L : RegexLib) (newPat : String)
    (existing : List ExistingRule) :
    (∀ e, L.parse newPat = .error e →
        checkOverlap L newPat existing =
          (true, some ("Invalid or too complex regex structure for verification: "
            ++ e)))
    ∧ (∀ na, L.parse newPat = .ok na →
        (((checkOverlap L newPat existing).1 = true ↔
            ∃ r ∈ existing, ∃ b, L.parse r.pattern = .ok b
              ∧ L.empty (L.inter na b) = false)
         ∧ ((checkOverlap L newPat existing).1 = true →
             ∃ r ∈ existing, ∃ b w, L.parse r.pattern = .ok b
               ∧ (checkOverlap L newPat existing).2
                   = some (conflictMsg r.id r.pattern w)
               ∧ L.accepts na w = true ∧ L.accepts b w = true)
         ∧ ((checkOverlap L newPat existing).1 = false →
             checkOverlap L newPat existing = (false, none)))) := by
  constructor
  · intro e he
    simp [checkOverlap, he]
  · intro na hna
    simp only [checkOverlap, hna]
    exact ⟨overlapScan_true_iff L na existing,
      overlapScan_conflict L na existing, overlapScan_false L na existing⟩

/-- Witness for C6: an unparsable new pattern conflicts fail-closed, and a
new pattern identical to a stored one is reported as a conflict. -/
theorem check_overlap_spec_witness :
    (listLib.parse "?" = .error "nothing to repeat")
    ∧ checkOverlap listLib "?" []
        = (true, some ("Invalid or too complex regex structure for verification: "
            ++ "nothing to repeat"))
    ∧ (listLib.parse "a" = .ok ["a"])
    ∧ ((checkOverlap listLib "a" [⟨"1", "a"⟩]).1 = true ↔
        ∃ r ∈ [(⟨"1", "a"⟩ : ExistingRule)], ∃ b, listLib.parse r.pattern = .ok b
          ∧ listLib.empty (listLib.inter ["a"] b) = false) := by
  refine ⟨rfl, ?_, rfl, ?_⟩
  · exact (check_overlap_spec listLib "?" []).1 "nothing to repeat" rfl
  · exact ((check_overlap_spec listLib "a" [⟨"1", "a"⟩]).2 ["a"] rfl).1

/-- Counterexample to claim C7 as stated: an INACTIVE stored rule does
participate in the create-time overlap decision (the rule-fetch query has no
`is_active` filter), so a candidate overlapping only an inactive rule is
rejected before storage, whereas the claim's active-only gate admits it. -/
theorem create_gate_inactive_participates :
    ((⟨"7", "a", false⟩ : StoredRule).is_active = false)
    ∧ (createRuleGate listLib "a" [⟨"7", "a", false⟩]).1 = true
    ∧ (createRuleGateActiveOnly listLib "a" [⟨"7", "a", false⟩]).1 = false
    ∧ createRule listLib ⟨"9", "a", true⟩ [⟨"7", "a", false⟩]
        = .error ("Rule Conflict: "
            ++ conflictMsg "7" "a" "a") := by
  exact ⟨rfl, rfl, rfl, rfl⟩

/-- Claim C7 as amended: the conflict gate compares the candidate pattern
against ALL stored rules — active or not — excluding only the rule itself
when editing, and a conflicting candidate is rejected before it reaches
storage. -/
theorem conflict_gate_all_rules (L : RegexLib) (pat ruleId : String)
    (stored : List StoredRule) (nr : StoredRule) :
    (∀ na, L.parse pat = .ok na →
        ((createRuleGate L pat stored).1 = true ↔
          ∃ r ∈ stored, ∃ b, L.parse r.pattern = .ok b
            ∧ L.empty (L.inter na b) = false))
    ∧ (∀ na, L.parse pat = .ok na →
        ((updateRuleGate L ruleId pat stored).1 = true ↔
          ∃ r ∈ stored, ¬ r.id = ruleId ∧ ∃ b, L.parse r.pattern = .ok b
            ∧ L.empty (L.inter na b) = false))
    ∧ ((createRuleGate L nr.pattern stored).1 = true →
        ∃ msg, createRule L nr stored = .error msg) := by
  refine ⟨?_, ?_, ?_⟩
  · intro na hna
    simp only [createRuleGate, checkOverlap, hna, overlapScan_true_iff]
    constructor
    · rintro ⟨row, hrow, b, hb1, hb2⟩
      obtain ⟨r, hr, hrr⟩ := List.mem_map.mp hrow
      subst hrr
      exact ⟨r, hr, b, hb1, hb2⟩
    · rintro ⟨r, hr, b, hb1, hb2⟩
      exact ⟨rowOf r, List.mem_map_of_mem rowOf hr, b, hb1, hb2⟩
  · intro na hna
    simp only [updateRuleGate, checkOverlap, hna, overlapScan_true_iff]
    constructor
    · rintro ⟨row, hrow, b, hb1, hb2⟩
      obtain ⟨r, hr, hrr⟩ := List.mem_map.mp hrow
      subst hrr
      obtain ⟨hr1, hr2⟩ := List.mem_filter.mp hr
      refine ⟨r, hr1, ?_, b, hb1, hb2⟩
      simpa using hr2
    · rintro ⟨r, hr, hne, b, hb1, hb2⟩
      refine ⟨rowOf r, List.mem_map_of_mem rowOf
        (List.mem_filter.mpr ⟨hr, by simpa using hne⟩), b, hb1, hb2⟩
  · intro hg
    simp only [createRule, hg, if_true]
    exact ⟨_, rfl⟩

/-- Witness for C7's amended statement: editing rule "8" to pattern "a"
conflicts because of the INACTIVE rule "7" (self excluded, activity
ignored), and the conflicting create is rejected before storage. -/
theorem conflict_gate_all_rules_witness :
    (listLib.parse "a" = .ok ["a"])
    ∧ ((updateRuleGate listLib "8" "a"
          [⟨"7", "a", false⟩, ⟨"8", "b", true⟩]).1 = true ↔
        ∃ r ∈ [(⟨"7", "a", false⟩ : StoredRule), ⟨"8", "b", true⟩],
          ¬ r.id = "8" ∧ ∃ b, listLib.parse r.pattern = .ok b
            ∧ listLib.empty (listLib.inter ["a"] b) = false)
    ∧ (∃ msg, createRule listLib ⟨"9", "a", true⟩ [⟨"7", "a", false⟩]
          = .error msg) := by
  refine ⟨rfl, ?_, ?_⟩
  · exact (conflict_gate_all_rules listLib "a" "8"
      [⟨"7", "a", false⟩, ⟨"8", "b", true⟩] ⟨"9", "a", true⟩).2.1 ["a"] rfl
  · exact (conflict_gate_all_rules listLib "a" "8"
      [⟨"7", "a", false⟩] ⟨"9", "a", true⟩).2.2 rfl

end UnboundCheck

namespace UnboundCheck

/-- Claim C8: whenever shell-word tokenization fails, the risk analyzer
returns immediately with decision BLOCK, score exactly 100 and reason
"Malformed command syntax" — in particular the final score is 100 even for
commands whose piping/redirection bonus of 30 was accrued before
tokenization, since the early return discards the running score. -/
theorem malformed_syntax_blocks (cmd : String) (h : tokenize cmd = none) :
    analyze cmd = ⟨"BLOCK", 100, "Malformed command syntax"⟩ := by
  simp [analyze, h]

/-- Witness for C8: `ls | "` contains a pipe (the +30 was accrued) and an
unterminated quote; the result is exactly the malformed-syntax verdict. -/
theorem malformed_syntax_blocks_witness :
    tokenize "ls | \"" = none
    ∧ containsChar "ls | \"" '|' = true
    ∧ analyze "ls | \"" = ⟨"BLOCK", 100, "Malformed command syntax"⟩ := by
  exact ⟨rfl, rfl, malformed_syntax_blocks _ rfl⟩

/-- The `rm -rf` bonus condition as claim C9 states it (claim-version, for
comparison with the code's `isRecursiveFlag`): force and recursive flags
seen among the four listed risky-flag literals only. -/
def claimBonusCond (b : String) (rest : List String) : Bool :=
  b == "rm" && rest.any isForceFlag
    && rest.any (fun t => t == "-r" || t == "--recursive")

/-- Counterexample to claim C9 as stated: on `rm -f -R` the code adds the
50-point destructive-combination bonus (total 130 = 60 binary + 20 flag +
50 bonus) although `-R` is not among the claim's listed literals, so the
claim's bonus condition is false; under the claim the score would stay at
80, the score of `rm -f`. -/
theorem risky_flag_counterexample :
    tokenize "rm -f -R" = some ["rm", "-f", "-R"]
    ∧ claimBonusCond "rm" ["-f", "-R"] = false
    ∧ (analyze "rm -f -R").score = 130
    ∧ (analyze "rm -f").score = 80 := by
  exact ⟨rfl, rfl, rfl, rfl⟩

/-- Claim C9 as amended: on a tokenizable command each non-first token among
the four risky-flag literals adds exactly 20 (and only those), each token
hitting a critical target adds exactly 100, and the 50 bonus is added
exactly when the binary is `rm` and a force literal (`-f`/`--force`) and a
recursive literal (`-r`/`-R`/`--recursive` — the code also records `-R`,
which contributes no 20) occur among the remaining tokens. -/
theorem risk_score_decomposition {cmd b : String} {rest : List String}
    (h : tokenize cmd = some (b :: rest)) :
    (analyze cmd).score =
      (if (containsChar cmd '|' || containsChar cmd '>') then 30 else 0)
        + (BINARY_RISK.lookup b).getD DEFAULT_BINARY_RISK
        + 20 * rest.countP isRiskyFlag + 100 * rest.countP criticalHit
        + (if b == "rm" && rest.any isForceFlag && rest.any isRecursiveFlag
           then 50 else 0) :=
  analyze_score_decomp h

/-- Witness for C9's amended statement on `rm -f -r /etc`
(60 + 20 + 20 + 100 + 50 = 250). -/
theorem risk_score_decomposition_witness :
    tokenize "rm -f -r /etc" = some ["rm", "-f", "-r", "/etc"]
    ∧ (analyze "rm -f -r /etc").score =
        (if (containsChar "rm -f -r /etc" '|' || containsChar "rm -f -r /etc" '>')
          then 30 else 0)
          + (BINARY_RISK.lookup "rm").getD DEFAULT_BINARY_RISK
          + 20 * (["-f", "-r", "/etc"].countP isRiskyFlag)
          + 100 * (["-f", "-r", "/etc"].countP criticalHit)
          + (if ("rm" == "rm" && ["-f", "-r", "/etc"].any isForceFlag
                && ["-f", "-r", "/etc"].any isRecursiveFlag) then 50 else 0)
    ∧ (analyze "rm -f -r /etc").score = 250 := by
  exact ⟨rfl, risk_score_decomposition rfl, rfl⟩

/-- A verdict built by the decision tree that executes from the guard layer
forces the analyzer score to be zero. -/
theorem decisionTree_guard_executed (env : JudgeEnv) (cmd dec : String)
    (mvar : Option (Option String)) (v : Verdict)
    (h : decisionTree env cmd dec mvar = .ok v)
    (hst : v.status = "EXECUTED") (hl : v.layer = "2_GUARD") :
    (analyze cmd).score = 0 := by
  simp only [decisionTree] at h
  split at h
  · split at h
    · have := layer3_ok_layer _ _ _ _ _ h
      rw [hl] at this
      exact absurd this (by decide)
    · cases mvar with
      | none => exact Except.noConfusion h
      | some m =>
        cases h
        simp at hst
  · split at h
    case isTrue h0 => exact h0
    case isFalse =>
      have := layer3_ok_layer _ _ _ _ _ h
      rw [hl] at this
      exact absurd this (by decide)

/-- Claim C10: a command containing `'|'` or `'>'` scores at least 30 (so
never 0), and therefore the orchestrator never returns it as EXECUTED with
the guard as source layer, whatever the rules, the judge environment and
the rule-store outcome. -/
theorem pipe_never_guard_executed (search : String → String → Option Bool)
    (env : JudgeEnv) (fetch : Except String (List Rule)) (cmd : String)
    (hp : (containsChar cmd '|' || containsChar cmd '>') = true) :
    30 ≤ (analyze cmd).score
    ∧ ∀ v, processCommand search env fetch cmd = .ok v →
        ¬(v.status = "EXECUTED" ∧ v.layer = "2_GUARD") := by
  have h30 := analyze_score_ge_30 hp
  refine ⟨h30, ?_⟩
  rintro v hv ⟨hst, hl⟩
  have hscore : (analyze cmd).score = 0 := by
    cases fetch with
    | error e => exact decisionTree_guard_executed env cmd "NO_MATCH" none v hv hst hl
    | ok rules =>
      cases hsc : scanRules search cmd rules none with
      | reject r =>
        simp only [processCommand, hsc] at hv
        cases hv
        simp at hst
      | accept m =>
        simp only [processCommand, hsc] at hv
        exact decisionTree_guard_executed env cmd "AUTO_ACCEPT" (some m) v hv hst hl
      | noMatch m =>
        simp only [processCommand, hsc] at hv
        exact decisionTree_guard_executed env cmd "NO_MATCH" (some m) v hv hst hl
  omega

/-- Witness for C10 at the piped command `a|b` (score 50). -/
theorem pipe_never_guard_executed_witness :
    ((containsChar "a|b" '|' || containsChar "a|b" '>') = true)
    ∧ (30 ≤ (analyze "a|b").score
       ∧ ∀ v, processCommand searchStub noKeyEnv (.ok []) "a|b" = .ok v →
           ¬(v.status = "EXECUTED" ∧ v.layer = "2_GUARD")) := by
  exact ⟨by decide,
    pipe_never_guard_executed searchStub noKeyEnv (.ok []) "a|b" (by decide)⟩

end UnboundCheck
